import Mathlib

/-!
Verification of the ZKAPAuthorizer pass-spending client.

This development shallowly embeds the pass-spending machinery of the
repository:

* `spending.py` — `PassGroup` and its `split`/`expand` operations;
* `tests/storage_common.py` — the stateful pass issuer `_PassFactory`
  (specialised, as `pass_factory()` does, to the `integer_passes()` source,
  so passes are natural numbers handed out from a counter);
* `_storage_client.py` — `replace_invalid_passes_with_new_passes`,
  the `call_with_passes` retry loop, the cost computations of
  `allocate_buckets` and `slot_testv_and_readv_and_writev`, `slot_readv`,
  and the `_rref` remote-interface-name check;
* `foolscap.py` — the server-side remote interface name.

The modules `storage_common.py` (cost function `required_passes`,
`has_writes`, `get_required_new_passes_for_mutable_write`) and `model.py`
(the voucher store) are not part of the source tree; definitions for them
are modelled from the specification (and, where the specification is
silent, pinned by the repository's own tests) and are marked as such in
their doc comments.

Python dynamic typing is embedded where it matters: `call_with_passes`
manipulates whatever value its `bind_passes` argument produced, and the
repository wires in a function returning a plain list, so the embedding
distinguishes a real pass group from a bare list (and from `None`), with
missing attributes surfacing as `PyExc.attributeError` exactly where the
interpreter would raise them.
-/

namespace ZKAP

/-- Passes as issued by `integer_passes()` in `tests/storage_common.py`:
consecutive natural numbers drawn from a shared counter. -/
abbrev Pass := Nat

/-- Python exceptions observed by the embedded code.  `invalidArgument` is
the error class the specification names for a mis-typed `share_sizes`
argument; no repository code raises it (the test asserts `TypeError`). -/
inductive MorePassesRequired where
  | mk (valid_count : Nat) (required_count : Nat) (signature_check_failed : List Nat)
deriving DecidableEq, Repr

/-- The list of 0-based indices of passes whose signature check failed,
as carried by the `MorePassesRequired` exception. -/
def MorePassesRequired.signature_check_failed : MorePassesRequired → List Nat
  | .mk _ _ f => f

/-- Exceptions that can surface from the embedded client code. -/
inductive PyExc where
  | valueError
  | attributeError
  | typeError
  | invalidArgument
  | morePasses (e : MorePassesRequired)
  | otherError
deriving DecidableEq, Repr

/-- A pass group, from `spending.py`: a factory back-reference together
with the list of passes checked out in the group.  The factory type is a
parameter because the repository has two factory implementations. -/
structure PassGroup (φ : Type) where
  factory : φ
  passes : List Pass
deriving DecidableEq, Repr

/-- The loop of `PassGroup.split` in `spending.py`: walk the passes with
their index `idx`, sending a pass to the first component when `idx` is in
`select_indices` and to the second otherwise. -/
def splitPasses (select_indices : List Nat) : Nat → List Pass → List Pass × List Pass
  | _, [] => ([], [])
  | idx, p :: rest =>
    let (sel, unsel) := splitPasses select_indices (idx + 1) rest
    if idx ∈ select_indices then (p :: sel, unsel) else (sel, p :: unsel)

/-- `PassGroup.split` from `spending.py`: both result groups keep the
original factory (`attr.evolve` only replaces `passes`). -/
def PassGroup.split {φ : Type} (g : PassGroup φ) (select_indices : List Nat) :
    PassGroup φ × PassGroup φ :=
  let (sel, unsel) := splitPasses select_indices 0 g.passes
  (⟨g.factory, sel⟩, ⟨g.factory, unsel⟩)

/-- State of `_PassFactory` from `tests/storage_common.py`, specialised to
the `integer_passes()` pass source used by `pass_factory()`: `counter` is
the state of that source.  The attrs declaration names the queue attribute
`returned` and the class docstring documents it under that name, but the
method bodies of `get` and `_reset` spell it `self._returned`, an
attribute that never exists — in the repository those two methods raise
`AttributeError` unconditionally, the code bug recorded under C4.  The
operation definitions below therefore do not describe reachable
repository behaviour for `get` and `reset`: they spell out the
set-update logic the method bodies were written to perform (reading the
declared field), and serve only to express the pass-group branch of the
spending-loop embedding; no claim is confirmed through them.  The loop
theorems below evaluate only the plain-list and `None` branches, which
these definitions do not touch. -/
structure FactoryState where
  counter : Nat
  returned : List Pass
  in_use : Finset Pass
  invalid : Finset Pass
  invalidReason : Pass → Option String
  spent : Finset Pass
  issued : Finset Pass

/-- A fresh `pass_factory()`: empty bookkeeping, counter at zero. -/
def initialFactory : FactoryState :=
  { counter := 0
    returned := []
    in_use := ∅
    invalid := ∅
    invalidReason := fun _ => none
    spent := ∅
    issued := ∅ }

/-- The set-update logic written in the body of `_PassFactory.get`:
satisfy the request from the front of the `returned` queue, deleting what
was taken, then draw the remainder from the integer pass source (which
yields `counter, counter+1, …`); record everything handed out as `issued`
and `in_use`.  In the repository the method instead raises
`AttributeError` at its first statement (`if self._returned:` — the field
is `returned`), and would then hit a `TypeError` calling the
two-argument `integer_passes` source with one argument (the C4 finding);
this definition exists only to stage group values for the loop
embedding, not to assert that any pass is ever issued. -/
def FactoryState.get (st : FactoryState) (num_passes : Nat) :
    List Pass × FactoryState :=
  let fromReturned := st.returned.take num_passes
  let need := num_passes - fromReturned.length
  let fresh := List.range' st.counter need
  let ps := fromReturned ++ fresh
  (ps,
    { st with
      counter := st.counter + need
      returned := st.returned.drop num_passes
      issued := st.issued ∪ ps.toFinset
      in_use := st.in_use ∪ ps.toFinset })

/-- `_PassFactory._mark_spent`: every pass must currently be `in_use`
(else `ValueError`, with no state change); the passes move from `in_use`
to `spent`. -/
def FactoryState.mark_spent (st : FactoryState) (ps : List Pass) :
    Except PyExc FactoryState :=
  if ∀ p ∈ ps, p ∈ st.in_use then
    .ok { st with
          spent := st.spent ∪ ps.toFinset
          in_use := st.in_use \ ps.toFinset }
  else .error .valueError

/-- `_PassFactory._mark_invalid`: every pass must currently be `in_use`
(else `ValueError`); the passes move from `in_use` to `invalid`, each
mapped to `reason` (the `dict.update(dict.fromkeys(passes, reason))`). -/
def FactoryState.mark_invalid (st : FactoryState) (reason : String) (ps : List Pass) :
    Except PyExc FactoryState :=
  if ∀ p ∈ ps, p ∈ st.in_use then
    .ok { st with
          invalid := st.invalid ∪ ps.toFinset
          invalidReason := fun p => if p ∈ ps then some reason else st.invalidReason p
          in_use := st.in_use \ ps.toFinset }
  else .error .valueError

/-- The set-update logic written in the body of `_PassFactory._reset`:
every pass must currently be `in_use` (else `ValueError`); the passes are
appended to the `returned` queue and leave `in_use`.  In the repository
the method raises `AttributeError` at `self._returned.extend(passes)`
before mutating anything (the C4 finding), so the queue append below is
unreachable behaviour kept only for the group branch of the loop
embedding. -/
def FactoryState.reset (st : FactoryState) (ps : List Pass) :
    Except PyExc FactoryState :=
  if ∀ p ∈ ps, p ∈ st.in_use then
    .ok { st with
          returned := st.returned ++ ps
          in_use := st.in_use \ ps.toFinset }
  else .error .valueError

/-! ### The `call_with_passes` retry loop (`_storage_client.py`)

The loop manipulates whatever value `bind_passes` produced.  The client
methods of `ZKAPAuthorizerStorageClient` bind
`partial(self._bind_passes_encoded, message)`, and `_bind_passes_encoded`
returns a plain Python list of byte strings — not an `IPassGroup` — while
the loop body calls `.split`, `.expand`, `.mark_spent` and `.reset` on it.
The embedding therefore carries the dynamic type of the bound value:
a real pass group (backed by the single `_PassFactory`), a bare list, or
`None` (which the loop itself assigns when
`replace_invalid_passes_with_new_passes` returns `None`).  Attribute
lookups on a value that lacks the method raise `attributeError`. -/

/-- The dynamic value bound to the `passes` variable of
`call_with_passes`. -/
inductive PassesVal where
  | group (ps : List Pass)
  | rawList (ps : List Pass)
  | pyNone
deriving DecidableEq, Repr

/-- What one invocation of the wrapped `method` does: return normally or
raise an exception. -/
inductive Outcome where
  | ok
  | raiseExc (e : PyExc)
deriving DecidableEq, Repr

/-- The observable result of `call_with_passes`: the method's value was
returned, an exception escaped, or the finite schedule of modelled server
responses was exhausted with the loop still running. -/
inductive CallResult where
  | success
  | raised (e : PyExc)
  | hung
deriving DecidableEq, Repr

/-- `replace_invalid_passes_with_new_passes` from `_storage_client.py`.
If no signature check failed, return `None` (the caller re-raises).
Otherwise split the group at the failing indices, mark the rejected part
invalid with reason `"signature check failed"`, and expand the okay part
by the number of failures (`PassGroup.expand` appends the passes of a
fresh `factory.get`).  On a bare list or `None` the very first attribute
access, `passes.split`, raises `AttributeError`. -/
def replace_invalid_passes_with_new_passes (st : FactoryState) (v : PassesVal)
    (e : MorePassesRequired) : Except PyExc (Option (PassesVal × FactoryState)) :=
  let num_failed := e.signature_check_failed.length
  if num_failed = 0 then .ok none
  else
    match v with
    | .group ps =>
      let (rejected, okay) := splitPasses e.signature_check_failed 0 ps
      match st.mark_invalid "signature check failed" rejected with
      | .error exc => .error exc
      | .ok st1 =>
        let (fresh, st2) := st1.get num_failed
        .ok (some (.group (okay ++ fresh), st2))
    | _ => .error .attributeError

/-- `passes.mark_spent()` on the dynamic value: delegates to the factory
for a group, raises `AttributeError` on a bare list or `None`. -/
def valMarkSpent (st : FactoryState) : PassesVal → Except PyExc FactoryState
  | .group ps => st.mark_spent ps
  | _ => .error .attributeError

/-- `passes.reset()` on the dynamic value: delegates to the factory for a
group, raises `AttributeError` on a bare list or `None`. -/
def valReset (st : FactoryState) : PassesVal → Except PyExc FactoryState
  | .group ps => st.reset ps
  | _ => .error .attributeError

/-- The outer `except Exception` suite of `call_with_passes`:
`passes.reset()` then re-raise.  If the reset itself raises, that new
exception propagates instead and no state was changed. -/
def resetAndRaise (v : PassesVal) (st : FactoryState) (e : PyExc) :
    CallResult × FactoryState :=
  match valReset st v with
  | .ok st' => (.raised e, st')
  | .error e2 => (.raised e2, st)

/-- The `while True` loop of `call_with_passes`, driven by the finite
schedule of method outcomes.  On `MorePassesRequired` the variable
`passes` is reassigned to the result of
`replace_invalid_passes_with_new_passes` before the `None` check, so when
that result is `None` the outer handler runs `None.reset()`. -/
def callLoop : List Outcome → PassesVal → FactoryState → CallResult × FactoryState
  | [], _, st => (.hung, st)
  | o :: os, v, st =>
    match o with
    | .ok =>
      match valMarkSpent st v with
      | .ok st' => (.success, st')
      | .error e => resetAndRaise v st e
    | .raiseExc (.morePasses e) =>
      match replace_invalid_passes_with_new_passes st v e with
      | .error e2 => resetAndRaise v st e2
      | .ok none => resetAndRaise .pyNone st (.morePasses e)
      | .ok (some (v', st')) => callLoop os v' st'
    | .raiseExc e => resetAndRaise v st e

/-! ### Cost function (`storage_common.py`, not under the source tree) -/

/-- Modelled from the spec: `required_passes` of the absent module
`storage_common.py` returns the quotient of the total size by
`bytes_per_pass`, plus one when a remainder is left — that is,
`ceil(sum(share_sizes) / bytes_per_pass)` (spec §4.1 and §8). -/
def required_passes (bytes_per_pass : Nat) (share_sizes : List Nat) : Nat :=
  share_sizes.sum / bytes_per_pass +
    (if share_sizes.sum % bytes_per_pass = 0 then 0 else 1)

/-- The `share_sizes` argument as the caller may (mis)supply it: an
ordered list or an unordered set. -/
inductive ShareSizesArg where
  | ofList (sizes : List Nat)
  | ofSet (sizes : Finset Nat)

/-- Modelled from the spec: the argument check of the absent
`required_passes` — an unordered set is rejected instead of being
quantized nondeterministically.  The error raised is pinned by the
repository's own test (`RequiredPassesTests.test_incorrect_types` asserts
`TypeError`). -/
def required_passes_checked (bytes_per_pass : Nat) (arg : ShareSizesArg) :
    Except PyExc Nat :=
  match arg with
  | .ofSet _ => .error .typeError
  | .ofList sizes => .ok (required_passes bytes_per_pass sizes)

/-- The pass count computed by `ZKAPAuthorizerStorageClient.allocate_buckets`:
`required_passes(self._pass_value, [allocated_size] * len(sharenums))`. -/
def allocate_buckets_num_passes (pass_value : Nat) (allocated_size : Nat)
    (num_sharenums : Nat) : Nat :=
  required_passes pass_value (List.replicate num_sharenums allocated_size)

/-- One share's entry of the `tw_vectors` argument: the write vector as
`(offset, data)` pairs (data abstracted to its bytes) and the optional
new length. -/
structure TestWriteVectors where
  writes : List (Nat × List Nat)
  new_length : Option Nat

/-- Modelled from the spec: `has_writes` of the absent `storage_common.py`
— a test-and-write-vectors mapping performs writes when some share has a
non-empty write vector or requests a truncation. -/
def has_writes (tw_vectors : List (Nat × TestWriteVectors)) : Bool :=
  tw_vectors.any fun s => !s.2.writes.isEmpty || s.2.new_length.isSome

/-- Modelled from the spec: the length a share has after applying a write
vector — the furthest byte written, truncated to `new_length` when one is
given. -/
def implied_data_length (vectors : TestWriteVectors) : Nat :=
  let written := vectors.writes.foldr (fun w acc => max (w.1 + w.2.length) acc) 0
  match vectors.new_length with
  | some l => min l written
  | none => written

/-- Modelled from the spec: `get_required_new_passes_for_mutable_write` of
the absent `storage_common.py` — per share, the implied new length minus
the currently stored length (clamped at zero), fed to `required_passes`. -/
def get_required_new_passes_for_mutable_write (pass_value : Nat)
    (current_sizes : Nat → Nat) (tw_vectors : List (Nat × TestWriteVectors)) : Nat :=
  required_passes pass_value
    (tw_vectors.map fun s => implied_data_length s.2 - current_sizes s.1)

/-- The pass count of `slot_testv_and_readv_and_writev` in
`_storage_client.py`: zero unless the vectors contain writes, in which
case the mutable-write cost function is consulted. -/
def slot_testv_num_passes (pass_value : Nat) (current_sizes : Nat → Nat)
    (tw_vectors : List (Nat × TestWriteVectors)) : Nat :=
  if has_writes tw_vectors then
    get_required_new_passes_for_mutable_write pass_value current_sizes tw_vectors
  else 0

/-- A remote invocation as the client assembles it: the remote method
name and the list of passes sent with it, when any. -/
structure RemoteInvocation where
  method : String
  passes : Option (List Pass)
deriving DecidableEq, Repr

/-- The invocation assembled by `slot_readv` in `_storage_client.py`:
`callRemote("slot_readv", storage_index, shares, r_vector)` — no passes
argument at all. -/
def slot_readv_call : RemoteInvocation :=
  { method := "slot_readv", passes := none }

/-! ### Unblinded-token pool of the voucher store (`model.py`, not under
the source tree) -/

/-- Modelled from the spec: the voucher store's pool of unblinded tokens
(`model.py` is absent); tokens are opaque comparable values, embedded as
naturals, appended to the pool as they are inserted for a voucher. -/
def insert_unblinded_tokens (pool : List Nat) (tokens : List Nat) : List Nat :=
  pool ++ tokens

/-- Modelled from the spec: `extract_unblinded_tokens(n)` removes and
returns up to `n` tokens, fewer only when the pool is short, each token
at most once.  The extraction order is pinned by the repository's test
`UnblindedTokenStoreTests.test_unblinded_tokens_round_trip`, which
asserts that extracting every token yields the *sorted* token list, so
the pool is consumed in ascending token order. -/
def extract_unblinded_tokens (pool : List Nat) (n : Nat) : List Nat × List Nat :=
  let inOrder := pool.insertionSort (· ≤ ·)
  (inOrder.take n, inOrder.drop n)

/-- A sequence of extractions: the outputs of each call, and the final
pool. -/
def runExtracts (pool : List Nat) : List Nat → List (List Nat) × List Nat
  | [] => ([], pool)
  | n :: ns =>
    let (out, rest) := extract_unblinded_tokens pool n
    let (outs, final) := runExtracts rest ns
    (out :: outs, final)

/-! ### Remote-reference verification (`_storage_client.py`, `foolscap.py`) -/

/-- The remote interface name the client expects
(`ZKAPAuthorizerStorageClient._expected_remote_interface_name`). -/
def expected_remote_interface_name : String :=
  "RIPrivacyPassAuthorizedStorageServer.tahoe.privatestorage.io"

/-- The `__remote_name__` declared by the server-side remote interface
`RIPrivacyPassAuthorizedStorageServer` in `foolscap.py`. -/
def RIPrivacyPassAuthorizedStorageServer_remote_name : String :=
  "RIPrivacyPassAuthorizedStorageServer.tahoe.privatestorage.io"

/-- A resolved Foolscap remote reference, reduced to what `_rref` reads:
the tracked interface name and the tracked URL (furl). -/
structure RemoteReference where
  interfaceName : String
  url : String
deriving DecidableEq, Repr

/-- The `IncorrectStorageServerReference` exception: the furl, the name
actually advertised, and the name expected. -/
structure IncorrectStorageServerReference where
  furl : String
  actual_name : String
  expected_name : String
deriving DecidableEq, Repr

/-- `ZKAPAuthorizerStorageClient._rref`: fetch the reference, compare the
advertised interface name with the expected one, and raise
`IncorrectStorageServerReference` on mismatch, else return the
reference. -/
def _rref (rref : RemoteReference) :
    Except IncorrectStorageServerReference RemoteReference :=
  if rref.interfaceName ≠ expected_remote_interface_name then
    .error ⟨rref.url, rref.interfaceName, expected_remote_interface_name⟩
  else .ok rref

/-- The `with_rref` decorator: resolve and check the reference, then hand
it to the wrapped method; when the check fails the method body is never
entered. -/
def with_rref {α : Type} (f : RemoteReference → α) (rref : RemoteReference) :
    Except IncorrectStorageServerReference α :=
  (_rref rref).map f

/-! ## Theorems -/

theorem splitPasses_eq_filter (I : List Nat) (ps : List Pass) : ∀ k : Nat,
    splitPasses I k ps =
      (((ps.enumFrom k).filter (fun x => decide (x.1 ∈ I))).map Prod.snd,
       ((ps.enumFrom k).filter (fun x => decide (x.1 ∉ I))).map Prod.snd) := by
  induction ps with
  | nil => intro k; rfl
  | cons p rest ih =>
    intro k
    by_cases hk : k ∈ I <;>
      simp [splitPasses, List.enumFrom, ih (k + 1), hk]

theorem splitPasses_append_perm (I : List Nat) (ps : List Pass) : ∀ k : Nat,
    ((splitPasses I k ps).1 ++ (splitPasses I k ps).2).Perm ps := by
  induction ps with
  | nil => intro k; simp [splitPasses]
  | cons p rest ih =>
    intro k
    by_cases hk : k ∈ I
    · simpa [splitPasses, hk] using (ih (k + 1)).cons p
    · simp only [splitPasses, hk, if_false]
      exact List.perm_middle.trans ((ih (k + 1)).cons p)

theorem splitPasses_congr (I J : List Nat) (ps : List Pass) : ∀ k : Nat,
    (∀ i, k ≤ i → i < k + ps.length → (i ∈ I ↔ i ∈ J)) →
    splitPasses I k ps = splitPasses J k ps := by
  induction ps with
  | nil => intro k _; rfl
  | cons p rest ih =>
    intro k h
    have hk : k ∈ I ↔ k ∈ J := h k le_rfl (by simp)
    have hrest := ih (k + 1) (fun i h1 h2 => h i (by omega) (by simp; omega))
    by_cases hkI : k ∈ I
    · simp [splitPasses, hrest, hkI, hk.mp hkI]
    · have hkJ : k ∉ J := fun hJ => hkI (hk.mpr hJ)
      simp [splitPasses, hrest, hkI, hkJ]

/-- C10: `PassGroup.split(I)` returns two groups sharing the original
group's factory; the first holds exactly the passes whose position is in
`I`, the second all the others, both in their original relative order;
together they are a permutation of the group's passes; and indices in `I`
outside the group's positions have no effect on the result. -/
theorem C10_PassGroup_split {φ : Type} (g : PassGroup φ) (I : List Nat) :
    (g.split I).1.factory = g.factory ∧
    (g.split I).2.factory = g.factory ∧
    (g.split I).1.passes =
      ((g.passes.enum.filter (fun x => decide (x.1 ∈ I))).map Prod.snd) ∧
    (g.split I).2.passes =
      ((g.passes.enum.filter (fun x => decide (x.1 ∉ I))).map Prod.snd) ∧
    ((g.split I).1.passes ++ (g.split I).2.passes).Perm g.passes ∧
    g.split I = g.split (I.filter (fun i => decide (i < g.passes.length))) := by
  have hchar := splitPasses_eq_filter I g.passes 0
  have henum : g.passes.enumFrom 0 = g.passes.enum := rfl
  refine ⟨rfl, rfl, ?_, ?_, ?_, ?_⟩
  · simp [PassGroup.split, hchar, henum]
  · simp [PassGroup.split, hchar, henum]
  · simpa [PassGroup.split] using splitPasses_append_perm I g.passes 0
  · have := splitPasses_congr I
      (I.filter (fun i => decide (i < g.passes.length))) g.passes 0
      (by
        intro i _ h2
        simp only [List.mem_filter, decide_eq_true_eq]
        constructor
        · intro hi; exact ⟨hi, by omega⟩
        · intro hi; exact hi.1)
    simp [PassGroup.split, this]

/-- C9: every client operation runs through the `with_rref` decorator,
whose `_rref` check compares the advertised remote interface name with
the client's expected name — the very name `foolscap.py` declares as the
server interface's `__remote_name__`.  On a match the wrapped method
receives the reference; on a mismatch `IncorrectStorageServerReference`
carrying the furl, the actual name and the expected name is raised and
the wrapped method body is never entered (the result is that error for
every possible method). -/
theorem C9_remote_interface_verification :
    RIPrivacyPassAuthorizedStorageServer_remote_name =
      expected_remote_interface_name ∧
    (∀ (r : RemoteReference), r.interfaceName = expected_remote_interface_name →
      ∀ (α : Type) (f : RemoteReference → α), with_rref f r = .ok (f r)) ∧
    (∀ (r : RemoteReference), r.interfaceName ≠ expected_remote_interface_name →
      ∀ (α : Type) (f : RemoteReference → α),
        with_rref f r =
          .error ⟨r.url, r.interfaceName, expected_remote_interface_name⟩) := by
  refine ⟨rfl, ?_, ?_⟩
  · intro r hr α f
    simp [with_rref, _rref, hr, Except.map]
  · intro r hr α f
    simp [with_rref, _rref, hr, Except.map]

theorem C9_witness :
    (RemoteReference.mk "RIStorageServer.tahoe.allmydata.com"
        "pb://x@y/z").interfaceName ≠ expected_remote_interface_name ∧
    with_rref (fun _ => (0 : Nat))
        (RemoteReference.mk "RIStorageServer.tahoe.allmydata.com" "pb://x@y/z") =
      .error ⟨"pb://x@y/z", "RIStorageServer.tahoe.allmydata.com",
        expected_remote_interface_name⟩ :=
  ⟨by decide,
    (C9_remote_interface_verification.2.2
      (RemoteReference.mk "RIStorageServer.tahoe.allmydata.com" "pb://x@y/z")
      (by decide) Nat (fun _ => 0))⟩

/-- C7 counterexample: calling the checked `required_passes` with a set
for `share_sizes` does fail rather than return a count, but the error is
`TypeError` (as the repository's own test asserts), not the
`InvalidArgument` error the claim names. -/
theorem C7_counterexample :
    required_passes_checked 1 (.ofSet {0}) = .error .typeError ∧
    required_passes_checked 1 (.ofSet {0}) ≠ .error .invalidArgument := by
  refine ⟨rfl, ?_⟩
  intro h
  simp [required_passes_checked] at h

/-- C7 (amended): for every `bytes_per_pass ≥ 1`, calling
`required_passes` with `share_sizes` given as an unordered set fails with
a `TypeError` instead of returning a count. -/
theorem C7_set_share_sizes_rejected (bytes_per_pass : Nat)
    (_h : 1 ≤ bytes_per_pass) (sizes : Finset Nat) :
    required_passes_checked bytes_per_pass (.ofSet sizes) = .error .typeError :=
  rfl

theorem C7_witness :
    1 ≤ 2 ∧ required_passes_checked 2 (.ofSet {5, 9}) = .error .typeError :=
  ⟨by decide, C7_set_share_sizes_rejected 2 (by decide) {5, 9}⟩

/-- C6 counterexample: the pool extraction is not FIFO by insertion
order.  Inserting token 5 and then token 3 and extracting both yields
`[3, 5]` — ascending token order, exactly what the repository's
round-trip test asserts — not the insertion order `[5, 3]` the claim
describes. -/
theorem C6_counterexample :
    (extract_unblinded_tokens (insert_unblinded_tokens [] [5, 3]) 2).1 = [3, 5] ∧
    (extract_unblinded_tokens (insert_unblinded_tokens [] [5, 3]) 2).1 ≠ [5, 3] := by
  exact ⟨by decide, by decide⟩

theorem extract_eq (pool : List Nat) (n : Nat) :
    extract_unblinded_tokens pool n =
      ((pool.insertionSort (· ≤ ·)).take n,
        (pool.insertionSort (· ≤ ·)).drop n) := rfl

theorem extract_spec (pool : List Nat) (n : Nat) :
    (extract_unblinded_tokens pool n).1.length = min n pool.length ∧
    List.Sorted (· ≤ ·) (extract_unblinded_tokens pool n).1 ∧
    ((extract_unblinded_tokens pool n).1 ++
        (extract_unblinded_tokens pool n).2).Perm pool := by
  rw [extract_eq]
  refine ⟨?_, ?_, ?_⟩
  · rw [List.length_take, (List.perm_insertionSort (· ≤ ·) pool).length_eq]
  · exact List.Pairwise.sublist (List.take_sublist _ _)
      (List.sorted_insertionSort (· ≤ ·) pool)
  · rw [List.take_append_drop]
    exact List.perm_insertionSort (· ≤ ·) pool

theorem runExtracts_cons (pool : List Nat) (n : Nat) (ns : List Nat) :
    runExtracts pool (n :: ns) =
      ((extract_unblinded_tokens pool n).1 ::
          (runExtracts (extract_unblinded_tokens pool n).2 ns).1,
        (runExtracts (extract_unblinded_tokens pool n).2 ns).2) := rfl

theorem runExtracts_join_perm : ∀ (ns : List Nat) (pool : List Nat),
    ((runExtracts pool ns).1.flatten ++ (runExtracts pool ns).2).Perm pool := by
  intro ns
  induction ns with
  | nil => intro pool; simp [runExtracts]
  | cons n ns ih =>
    intro pool
    rw [runExtracts_cons]
    simp only [List.flatten_cons]
    rw [List.append_assoc]
    exact ((ih (extract_unblinded_tokens pool n).2).append_left
      (extract_unblinded_tokens pool n).1).trans (extract_spec pool n).2.2

/-- C6 (amended): for a duplicate-free pool, `extract_unblinded_tokens(n)`
removes and returns up to `n` tokens — exactly `min n |pool|` of them — in
ascending token order (the order the repository's round-trip test pins
down), and across any sequence of extractions no token is ever returned
more than once. -/
theorem C6_extraction_ordered_at_most_once :
    ∀ pool : List Nat, pool.Nodup →
      (∀ n, (extract_unblinded_tokens pool n).1.length = min n pool.length ∧
        List.Sorted (· ≤ ·) (extract_unblinded_tokens pool n).1 ∧
        ((extract_unblinded_tokens pool n).1 ++
            (extract_unblinded_tokens pool n).2).Perm pool) ∧
      (∀ ns : List Nat, ((runExtracts pool ns).1.flatten).Nodup) := by
  intro pool hnd
  refine ⟨fun n => extract_spec pool n, ?_⟩
  intro ns
  have hperm := runExtracts_join_perm ns pool
  have hall : ((runExtracts pool ns).1.flatten ++ (runExtracts pool ns).2).Nodup :=
    hperm.nodup_iff.mpr hnd
  exact List.Nodup.sublist (List.sublist_append_left _ _) hall

theorem C6_witness :
    ([5, 3] : List Nat).Nodup ∧
    ((runExtracts [5, 3] [1, 1]).1.flatten).Nodup :=
  ⟨by decide, (C6_extraction_ordered_at_most_once [5, 3] (by decide)).2 [1, 1]⟩

/-- C8: the client-side facts of zero-cost reads, evaluated against the
repository's own wiring.  `slot_readv` sends no passes argument at all
(and never goes through `call_with_passes`), and
`slot_testv_and_readv_and_writev` computes a pass count of zero whenever
the test-and-write vectors contain no writes — those two parts of the
claim are faithful to the source.  The production spending loop, whose
bound `passes` value is the plain list `_bind_passes_encoded` returns,
never alters the factory state on any schedule, so in particular the
`spent` set is unchanged by a zero-pass read — but only because the same
plain-list wiring makes the read itself crash: after the wrapped call
succeeds, `passes.mark_spent()` raises `AttributeError`, so a zero-pass
`slot_testv_and_readv_and_writev` read never completes and the claimed
read-back-without-spending scenario is unreachable. -/
theorem C8_zero_pass_reads :
    slot_readv_call.passes = none ∧
    (∀ (pass_value : Nat) (current_sizes : Nat → Nat)
        (tw_vectors : List (Nat × TestWriteVectors)),
      (∀ s ∈ tw_vectors, s.2.writes = [] ∧ s.2.new_length = none) →
      slot_testv_num_passes pass_value current_sizes tw_vectors = 0) ∧
    (∀ (os : List Outcome) (ps : List Pass) (st : FactoryState),
      (callLoop os (.rawList ps) st).2 = st) ∧
    (∀ st : FactoryState,
      (callLoop [.ok] (.rawList []) st).1 = .raised .attributeError) := by
  refine ⟨rfl, ?_, ?_, ?_⟩
  · intro pv cur tv h
    have hnw : has_writes tv = false := by
      unfold has_writes
      rw [List.any_eq_false]
      intro s hs
      rcases h s hs with ⟨h1, h2⟩
      rw [h1, h2]
      decide
    simp [slot_testv_num_passes, hnw]
  · intro os ps st
    cases os with
    | nil => rfl
    | cons o os =>
      cases o with
      | ok => rfl
      | raiseExc e =>
        cases e with
        | morePasses e =>
          by_cases h : e.signature_check_failed.length = 0
          · simp [callLoop, replace_invalid_passes_with_new_passes, h,
              resetAndRaise, valReset]
          · simp [callLoop, replace_invalid_passes_with_new_passes, h,
              resetAndRaise, valReset]
        | valueError => rfl
        | attributeError => rfl
        | typeError => rfl
        | invalidArgument => rfl
        | otherError => rfl
  · intro st
    rfl

theorem C8_witness :
    (∀ s ∈ [((0 : Nat), TestWriteVectors.mk [] none)],
        s.2.writes = [] ∧ s.2.new_length = none) ∧
    slot_testv_num_passes 131072 (fun _ => 0)
      [((0 : Nat), TestWriteVectors.mk [] none)] = 0 :=
  ⟨by decide, C8_zero_pass_reads.2.1 131072 (fun _ => 0)
    [((0 : Nat), TestWriteVectors.mk [] none)] (by decide)⟩

/-- C1: evaluation of `call_with_passes` at the repository's own wiring.
The client methods bind `partial(self._bind_passes_encoded, message)`,
which returns a plain list of encoded passes, so both halves of the
claimed behaviour crash: when the first attempt fails with
`MorePassesRequired(signature_check_failed=[0])`, the replacement path
(`passes.split`) raises `AttributeError` instead of splitting, marking
invalid, expanding and retrying; and when the call succeeds outright,
`passes.mark_spent()` raises `AttributeError` instead of marking the
group spent. -/
theorem C1_client_wiring_crash :
    (callLoop [.raiseExc (.morePasses (.mk 0 1 [0]))]
        (.rawList [0]) initialFactory).1 = .raised .attributeError ∧
    (callLoop [.ok] (.rawList [0]) initialFactory).1 = .raised .attributeError := by
  exact ⟨rfl, rfl⟩

/-- C2: evaluation of the non-retryable path.  When the wrapped method
fails with `MorePassesRequired` whose `signature_check_failed` is empty,
`call_with_passes` rebinds `passes` to `None` before re-raising, so the
outer handler executes `None.reset()`: an `AttributeError` escapes
instead of the original `MorePassesRequired`, the factory state is
untouched, and the group's two passes stay `in_use` — they are not
returned for reuse.  (This happens even with a genuine pass group; with
the plain-list wiring of C1 every other error is masked the same way by
`passes.reset()`.) -/
theorem C2_empty_failure_not_reset :
    (callLoop [.raiseExc (.morePasses (.mk 0 2 []))]
        (.group (initialFactory.get 2).1) (initialFactory.get 2).2).1 =
      .raised .attributeError ∧
    (callLoop [.raiseExc (.morePasses (.mk 0 2 []))]
        (.group (initialFactory.get 2).1) (initialFactory.get 2).2).1 ≠
      .raised (.morePasses (.mk 0 2 [])) ∧
    (callLoop [.raiseExc (.morePasses (.mk 0 2 []))]
        (.group (initialFactory.get 2).1) (initialFactory.get 2).2).2.returned = [] ∧
    (callLoop [.raiseExc (.morePasses (.mk 0 2 []))]
        (.group (initialFactory.get 2).1) (initialFactory.get 2).2).2.in_use =
      {0, 1} := by
  refine ⟨rfl, by decide, rfl, by decide⟩

/-- C5: for every `bytes_per_pass ≥ 1` the (spec-modelled) cost function
returns exactly the ceiling of the total share size divided by
`bytes_per_pass`, and `allocate_buckets` computes its pass count as
`required_passes(pass_value, [allocated_size] * len(sharenums))`. -/
theorem C5_required_passes_is_ceiling :
    (∀ bytes_per_pass : Nat, 1 ≤ bytes_per_pass → ∀ share_sizes : List Nat,
      (required_passes bytes_per_pass share_sizes : ℤ) =
        ⌈(share_sizes.sum : ℚ) / (bytes_per_pass : ℚ)⌉) ∧
    (∀ pass_value allocated_size num_sharenums : Nat,
      allocate_buckets_num_passes pass_value allocated_size num_sharenums =
        required_passes pass_value (List.replicate num_sharenums allocated_size)) := by
  constructor
  · intro b hb l
    set s := l.sum with hs
    have hdm0 : b * (s / b) + s % b = s := Nat.div_add_mod s b
    have hmlt0 : s % b < b := Nat.mod_lt _ (by omega)
    obtain ⟨q, hq_def⟩ : ∃ q, s / b = q := ⟨_, rfl⟩
    obtain ⟨r, hr_def⟩ : ∃ r, s % b = r := ⟨_, rfl⟩
    rw [hq_def] at hdm0
    rw [hr_def] at hdm0 hmlt0
    have hb0 : (0 : ℚ) < (b : ℚ) := by exact_mod_cast hb
    have hqr : (b : ℤ) * (q : ℤ) + (r : ℤ) = (s : ℤ) := by exact_mod_cast hdm0
    have hrb : (r : ℤ) < (b : ℤ) := by exact_mod_cast hmlt0
    have hb1 : (1 : ℤ) ≤ (b : ℤ) := by exact_mod_cast hb
    symm
    rw [Int.ceil_eq_iff]
    simp only [required_passes, ← hs, hq_def, hr_def]
    constructor
    · rw [lt_div_iff₀ hb0]
      have key : (((q + if r = 0 then 0 else 1 : ℕ) : ℤ) - 1) * (b : ℤ) < (s : ℤ) := by
        by_cases hz : r = 0
        · have hz' : (r : ℤ) = 0 := by exact_mod_cast hz
          simp only [hz, if_pos rfl]
          push_cast
          nlinarith [hqr, hb1, hz']
        · have h1 : (1 : ℤ) ≤ (r : ℤ) := by
            exact_mod_cast Nat.pos_of_ne_zero hz
          simp only [if_neg hz]
          push_cast
          nlinarith [hqr, h1]
      exact_mod_cast key
    · rw [div_le_iff₀ hb0]
      have key : (s : ℤ) ≤ ((q + if r = 0 then 0 else 1 : ℕ) : ℤ) * (b : ℤ) := by
        by_cases hz : r = 0
        · have hz' : (r : ℤ) = 0 := by exact_mod_cast hz
          simp only [hz, if_pos rfl]
          push_cast
          nlinarith [hqr, hz']
        · simp only [if_neg hz]
          push_cast
          nlinarith [hqr, hrb]
      exact_mod_cast key
  · intro pv sz n
    rfl

theorem C5_witness :
    1 ≤ 131072 ∧
    (required_passes 131072 (List.replicate 3 100000) : ℤ) =
      ⌈((List.replicate 3 100000 : List ℕ).sum : ℚ) / ((131072 : ℕ) : ℚ)⌉ :=
  ⟨by omega, C5_required_passes_is_ceiling.1 131072 (by omega)
    (List.replicate 3 100000)⟩

end ZKAP
